import Mathlib

/-!
Verification development for the DutchVocabBot learning core.

The Python sources are shallowly embedded: SQLAlchemy rows become Lean
structures, database tables become lists of rows, timestamps become
rationals measured in days, and Python floats become rationals.  Each
definition mirrors one function of the sources (`src/spaced_repetition.py`,
`src/exercises.py`, `src/data/repositories.py`, `src/ml/contextual_bandits.py`,
`src/ml/progress_predictor.py`); deviations forced by the embedding are
noted next to the definition they concern.
-/

namespace DutchVocab

/-! ## Data model (src/data/models.py)

Column defaults are reproduced in `freshWord` below.  JSON-serialised
columns (`model_coefficients`, `scaler_mean`, `scaler_scale`) are stored
as the decoded lists; the JSON round-trip is modelled as the identity. -/

structure User where
  id : ℕ
  telegram_id : ℕ
deriving DecidableEq

structure UserWord where
  id : ℕ
  user_id : ℕ
  dutch_word : String
  english_translation : String
  is_active : Bool
  mastery_level : ℚ
  last_seen : Option ℚ
  times_seen : ℕ
  times_correct : ℕ
  average_response_time : ℚ
  next_review_date : Option ℚ
  repetition_count : ℕ
  ease_factor : ℚ
deriving DecidableEq

structure LearningSession where
  user_id : ℕ
  user_word_id : ℕ
  exercise_type : String
  is_correct : Bool
  response_time : ℚ
  timestamp : ℚ
deriving DecidableEq

/-- A `UserWord` row as created by the vocabulary loader: every column takes
the default declared in `src/data/models.py` (`mastery_level=0.0`,
`times_seen=0`, `times_correct=0`, `average_response_time=0.0`,
`repetition_count=0`, `ease_factor=2.5`, `is_active=True`, nullable
timestamps unset). -/
def freshWord (id user_id : ℕ) (nl en : String) : UserWord :=
  { id := id
    user_id := user_id
    dutch_word := nl
    english_translation := en
    is_active := true
    mastery_level := 0
    last_seen := none
    times_seen := 0
    times_correct := 0
    average_response_time := 0
    next_review_date := none
    repetition_count := 0
    ease_factor := 2.5 }

/-! ## A sorting helper

`ORDER BY` clauses and Python's `list.sort` are modelled by an insertion
sort parameterised by a boolean comparison. -/

def insertSorted (le : α → α → Bool) (x : α) : List α → List α
  | [] => [x]
  | y :: ys => if le x y then x :: y :: ys else y :: insertSorted le x ys

def sortBy (le : α → α → Bool) : List α → List α
  | [] => []
  | x :: xs => insertSorted le x (sortBy le xs)

theorem mem_insertSorted (le : α → α → Bool) (x : α) (l : List α) (a : α) :
    a ∈ insertSorted le x l ↔ a = x ∨ a ∈ l := by
  induction l with
  | nil => simp [insertSorted]
  | cons y ys ih =>
    by_cases h : le x y = true
    · simp [insertSorted, h]
    · simp only [insertSorted, if_neg h, List.mem_cons, ih]
      tauto

theorem mem_sortBy (le : α → α → Bool) (l : List α) (a : α) :
    a ∈ sortBy le l ↔ a ∈ l := by
  induction l with
  | nil => simp [sortBy]
  | cons x xs ih => simp [sortBy, mem_insertSorted, ih]

theorem length_sortBy (le : α → α → Bool) (l : List α) :
    (sortBy le l).length = l.length := by
  induction l with
  | nil => rfl
  | cons x xs ih =>
    have hlen : ∀ (m : List α), (insertSorted le x m).length = m.length + 1 := by
      intro m
      induction m with
      | nil => rfl
      | cons y ys ihm =>
        by_cases h : le x y = true
        · simp [insertSorted, h]
        · simp [insertSorted, h, ihm]
    simp [sortBy, hlen, ih]

theorem pairwise_insertSorted (le : α → α → Bool)
    (htot : ∀ a b, le a b = true ∨ le b a = true)
    (htrans : ∀ a b c, le a b = true → le b c = true → le a c = true)
    (x : α) (l : List α) (h : l.Pairwise (fun a b => le a b = true)) :
    (insertSorted le x l).Pairwise (fun a b => le a b = true) := by
  induction l with
  | nil => simp [insertSorted]
  | cons y ys ih =>
    rcases List.pairwise_cons.mp h with ⟨hy, hys⟩
    by_cases hxy : le x y = true
    · rw [insertSorted, if_pos hxy]
      refine List.pairwise_cons.mpr ⟨?_, h⟩
      intro b hb
      rcases List.mem_cons.mp hb with rfl | hb
      · exact hxy
      · exact htrans x y b hxy (hy b hb)
    · rw [insertSorted, if_neg hxy]
      refine List.pairwise_cons.mpr ⟨?_, ih hys⟩
      intro b hb
      rcases (mem_insertSorted le x ys b).mp hb with hbx | hb
      · rw [hbx]
        rcases htot x y with h1 | h1
        · exact absurd h1 hxy
        · exact h1
      · exact hy b hb

theorem pairwise_sortBy (le : α → α → Bool)
    (htot : ∀ a b, le a b = true ∨ le b a = true)
    (htrans : ∀ a b c, le a b = true → le b c = true → le a c = true)
    (l : List α) : (sortBy le l).Pairwise (fun a b => le a b = true) := by
  induction l with
  | nil => simp [sortBy]
  | cons x xs ih => exact pairwise_insertSorted le htot htrans x _ ih

/-- The head of the sorted list is a least element of the original list. -/
theorem sortBy_head_min (le : α → α → Bool)
    (htot : ∀ a b, le a b = true ∨ le b a = true)
    (htrans : ∀ a b c, le a b = true → le b c = true → le a c = true)
    (l : List α) (x : α) (rest : List α) (hsort : sortBy le l = x :: rest) :
    ∀ y ∈ l, le x y = true := by
  intro y hy
  have hy2 : y ∈ x :: rest := by
    rw [← hsort, mem_sortBy]
    exact hy
  rcases List.mem_cons.mp hy2 with rfl | hy3
  · rcases htot y y with h | h <;> exact h
  · have := pairwise_sortBy le htot htrans l
    rw [hsort] at this
    exact (List.pairwise_cons.mp this).1 y hy3

/-! ## SpacedRepetitionManager (src/spaced_repetition.py)

The SQLAlchemy session is modelled by explicit lists of rows.  Timestamps
are rationals measured in days, so `timedelta.days` becomes the floor of a
difference and `now + timedelta(days=interval_days)` becomes a rational
addition. -/

def default_ease_factor : ℚ := 2.5
def min_ease_factor : ℚ := 1.3
def ease_factor_bonus : ℚ := 0.1
def ease_factor_penalty : ℚ := 0.2

/-- Python's `int()` applied to a float: truncation toward zero. -/
def pyInt (q : ℚ) : ℤ := if 0 ≤ q then ⌊q⌋ else ⌈q⌉

/-- `next_review_date <= now OR next_review_date IS NULL` from `_get_due_words`. -/
def isDue (now : ℚ) (w : UserWord) : Bool :=
  match w.next_review_date with
  | none => true
  | some d => decide (d ≤ now)

/-- Ascending order on `next_review_date` with `nulls_first()`. -/
def nullsFirstLe (a b : Option ℚ) : Bool :=
  match a, b with
  | none, _ => true
  | some _, none => false
  | some x, some y => decide (x ≤ y)

def _get_due_words (words : List UserWord) (user_id : ℕ) (now : ℚ) : List UserWord :=
  sortBy (fun a b => nullsFirstLe a.next_review_date b.next_review_date)
    (words.filter (fun w => w.user_id == user_id && w.is_active && isDue now w))

def _get_new_word (words : List UserWord) (user_id : ℕ) : Option UserWord :=
  (sortBy (fun a b => decide (a.id ≤ b.id))
    (words.filter (fun w => w.user_id == user_id && w.is_active && w.times_seen == 0))).head?

/-- The linear minimum scan of `_get_lowest_mastery_word`: starting from
`lowest_mastery = inf`, keep the first word whose predicted mastery is
strictly below the current minimum. -/
def _get_lowest_mastery_word (words : List UserWord) (user_id : ℕ)
    (predict_mastery : UserWord → ℚ) : Option UserWord :=
  let candidate_words := words.filter
    (fun w => w.user_id == user_id && w.is_active && 0 < w.times_seen)
  (candidate_words.foldl
    (fun best w =>
      match best with
      | none => some (w, predict_mastery w)
      | some (bw, bm) =>
        if predict_mastery w < bm then some (w, predict_mastery w) else some (bw, bm))
    none).map (fun p => p.1)

/-- `ORDER BY last_seen ASC` (SQLite places NULLs first on ascending order). -/
def _get_least_recent_word (words : List UserWord) (user_id : ℕ) : Option UserWord :=
  (sortBy (fun a b => nullsFirstLe a.last_seen b.last_seen)
    (words.filter (fun w => w.user_id == user_id && w.is_active && 0 < w.times_seen))).head?

/-- `_prioritize_by_mastery`: Python builds `(word, mastery)` pairs, sorts by
mastery ascending and returns the first pair's word.  The source is only
called on a non-empty list, so the embedding returns an `Option`. -/
def _prioritize_by_mastery (words : List UserWord)
    (predict_mastery : UserWord → ℚ) : Option UserWord :=
  ((sortBy (fun a b => decide (a.2 ≤ b.2))
    (words.map (fun w => (w, predict_mastery w))))).head?.map (fun p => p.1)

def get_next_word_for_review (users : List User) (words : List UserWord) (now : ℚ)
    (user_telegram_id : ℕ) (progress_predictor : Option (UserWord → ℚ)) :
    Option UserWord :=
  match users.find? (fun u => u.telegram_id == user_telegram_id) with
  | none => none
  | some user =>
    let due_words := _get_due_words words user.id now
    if due_words ≠ [] then
      match progress_predictor with
      | some pred =>
        if 1 < due_words.length then _prioritize_by_mastery due_words pred
        else due_words.head?
      | none => due_words.head?
    else
      match _get_new_word words user.id with
      | some new_word => some new_word
      | none =>
        match progress_predictor with
        | some pred => _get_lowest_mastery_word words user.id pred
        | none => _get_least_recent_word words user.id

/-- `_get_previous_interval`: the two most recent `LearningSession` rows for
the word, by descending timestamp; `timedelta.days` floors the difference. -/
def _get_previous_interval (sessions : List LearningSession)
    (user_id user_word_id : ℕ) : ℤ :=
  let recent := (sortBy (fun a b => decide (b.timestamp ≤ a.timestamp))
    (sessions.filter
      (fun s => s.user_id == user_id && s.user_word_id == user_word_id))).take 2
  match recent with
  | s0 :: s1 :: _ => max 1 ⌊s0.timestamp - s1.timestamp⌋
  | _ => 1

def _update_user_word_progress (now : ℚ) (user_word : UserWord)
    (is_correct : Bool) : UserWord :=
  let times_seen := user_word.times_seen + 1
  let times_correct := user_word.times_correct + (if is_correct then 1 else 0)
  let accuracy : ℚ :=
    if 0 < times_seen then (times_correct : ℚ) / (times_seen : ℚ) else 0
  { user_word with
      times_seen := times_seen
      times_correct := times_correct
      last_seen := some now
      mastery_level := min 1 (accuracy * ((times_seen : ℚ) / 10)) }

/-- `update_word_schedule` on an already-fetched word row.  The lookups of
`User` and `UserWord` (early returns when absent) happen in the callers of
the theorems below; `initial_intervals = [1, 6]` is inlined.  Python's
`int(prev_interval * ease_factor)` is `pyInt` (truncation). -/
def update_word_schedule (sessions : List LearningSession) (now : ℚ)
    (user_id : ℕ) (user_word : UserWord) (is_correct : Bool) : UserWord :=
  let repetition_count := user_word.repetition_count + 1
  let ease_factor := user_word.ease_factor
  let next :=
    if is_correct then
      let interval_days : ℤ :=
        if repetition_count = 1 then 1
        else if repetition_count = 2 then 6
        else
          let prev_interval := _get_previous_interval sessions user_id user_word.id
          max 1 (pyInt ((prev_interval : ℚ) * ease_factor))
      (repetition_count, interval_days, min 3 (ease_factor + ease_factor_bonus))
    else
      (0, (1 : ℤ), max min_ease_factor (ease_factor - ease_factor_penalty))
  _update_user_word_progress now
    { user_word with
        next_review_date := some (now + (next.2.1 : ℚ))
        repetition_count := next.1
        ease_factor := next.2.2 }
    is_correct

/-- One full answer turn as orchestrated by `bot.py` (`handle_exercise_answer`
/ `handle_text_answer`): the new `LearningSession` is added to the ORM
session *before* `update_word_schedule` runs, but the sessionmaker has
`autoflush=False` (src/data/models.py) and the schedule update queries the
session table before any commit, so the current answer's event is not yet
visible to `_get_previous_interval`; it becomes visible once the turn
commits. -/
def answerTurn (user_id : ℕ) (exercise_type : String)
    (st : UserWord × List LearningSession) (now : ℚ) (is_correct : Bool)
    (response_time : ℚ) : UserWord × List LearningSession :=
  (update_word_schedule st.2 now user_id st.1 is_correct,
   st.2 ++ [{ user_id := user_id
              user_word_id := st.1.id
              exercise_type := exercise_type
              is_correct := is_correct
              response_time := response_time
              timestamp := now }])

/-- Folding `update_word_schedule` over a sequence of answers; each turn may
happen at an arbitrary time and see an arbitrary session table. -/
def runSchedule (user_id : ℕ) (user_word : UserWord)
    (turns : List (List LearningSession × ℚ × Bool)) : UserWord :=
  turns.foldl (fun w t => update_word_schedule t.1 t.2.1 user_id w t.2.2) user_word

/-! ## ExerciseManager (src/exercises.py)

Python string operations are modelled character-wise (the vocabulary is
ASCII): `str.lower`, `str.strip`, `str.replace` (which removes *every*
occurrence of its pattern), substring containment, and `len`. -/

def pyLower (s : String) : String := (s.data.map Char.toLower).asString

def isPySpace (c : Char) : Bool :=
  c == ' ' || c == '\t' || c == '\n' || c == '\r'

def pyStrip (s : String) : String :=
  (((s.data.dropWhile isPySpace).reverse.dropWhile isPySpace).reverse).asString

/-- `str.replace("de ", "")`: removes every occurrence, scanning left to
right, continuing after each removal. -/
def removeDe : List Char → List Char
  | 'd' :: 'e' :: ' ' :: rest => removeDe rest
  | c :: rest => c :: removeDe rest
  | [] => []

/-- `str.replace("het ", "")`. -/
def removeHet : List Char → List Char
  | 'h' :: 'e' :: 't' :: ' ' :: rest => removeHet rest
  | c :: rest => c :: removeHet rest
  | [] => []

/-- Python's `needle in hay` on strings. -/
def pyContains : List Char → List Char → Bool
  | needle, [] => needle.isEmpty
  | needle, c :: rest => needle.isPrefixOf (c :: rest) || pyContains needle rest

def strStartsWith (s p : String) : Bool := p.data.isPrefixOf s.data

def strEndsWith (s p : String) : Bool := p.data.reverse.isPrefixOf s.data.reverse

def exercise_types : List String :=
  ["multiple_choice_en_to_nl", "multiple_choice_nl_to_en",
   "translation_en_to_nl", "translation_nl_to_en"]

def check_answer (word : UserWord) (exercise_type : String)
    (user_answer : String) : Bool :=
  let correct_answer :=
    if strEndsWith exercise_type "_to_nl" then word.dutch_word
    else word.english_translation
  if strStartsWith exercise_type "multiple_choice" then
    pyLower (pyStrip user_answer) == pyLower (pyStrip correct_answer)
  else
    let user_clean := pyLower (pyStrip user_answer)
    let correct_clean := pyLower (pyStrip correct_answer)
    if user_clean == correct_clean then true
    else
      let article_match :=
        if exercise_type == "translation_en_to_nl" then
          let user_no_article := (removeHet (removeDe user_clean.data)).asString
          let correct_no_article := (removeHet (removeDe correct_clean.data)).asString
          user_no_article == correct_no_article
        else false
      if article_match then true
      else if 3 < user_clean.data.length then
        pyContains user_clean.data correct_clean.data
          || pyContains correct_clean.data user_clean.data
      else false

/-- Result of exercise generation: the Telegram keyboard of
`_generate_multiple_choice` is modelled as the list of option strings
(one button per option, in order); free-text exercises have no keyboard. -/
structure Exercise where
  question : String
  options : Option (List String)
  correct_answer : String
deriving DecidableEq

/-- `random.sample(xs, k)` and `random.shuffle` are modelled as function
parameters; any concrete pair satisfying `SampleValid` / `ShuffleValid`
below is a possible behaviour of the random source. -/
def _generate_multiple_choice (db : List UserWord)
    (sample : ℕ → List UserWord → List UserWord)
    (shuffle : List String → List String)
    (correct_word : UserWord) (direction : String) : Exercise :=
  let wrong_words := (db.filter (fun w =>
    w.user_id == correct_word.user_id && w.id != correct_word.id
      && w.is_active)).take 50
  let wrong_words :=
    if wrong_words.length < 3 then
      (db.filter (fun w => w.id != correct_word.id && w.is_active)).take 50
    else wrong_words
  let wrong_options := sample (min 3 wrong_words.length) wrong_words
  let question :=
    if direction == "en_to_nl" then
      "What is the Dutch translation of \x27"
        ++ correct_word.english_translation ++ "\x27?"
    else
      "What is the English translation of \x27"
        ++ correct_word.dutch_word ++ "\x27?"
  let correct_answer :=
    if direction == "en_to_nl" then correct_word.dutch_word
    else correct_word.english_translation
  let wrong_answers :=
    if direction == "en_to_nl" then wrong_options.map (fun w => w.dutch_word)
    else wrong_options.map (fun w => w.english_translation)
  let options := shuffle (correct_answer :: wrong_answers)
  { question := question, options := some options, correct_answer := correct_answer }

def _generate_translation (word : UserWord) (direction : String) : Exercise :=
  if direction == "en_to_nl" then
    { question := "Translate to Dutch: \x27" ++ word.english_translation
        ++ "\x27\n\nType your answer:"
      options := none
      correct_answer := word.dutch_word }
  else
    { question := "Translate to English: \x27" ++ word.dutch_word
        ++ "\x27\n\nType your answer:"
      options := none
      correct_answer := word.english_translation }

def generate_exercise (db : List UserWord)
    (sample : ℕ → List UserWord → List UserWord)
    (shuffle : List String → List String)
    (user_word : UserWord) (exercise_type : String) : Exercise :=
  if exercise_type = "multiple_choice_en_to_nl" then
    _generate_multiple_choice db sample shuffle user_word "en_to_nl"
  else if exercise_type = "multiple_choice_nl_to_en" then
    _generate_multiple_choice db sample shuffle user_word "nl_to_en"
  else if exercise_type = "translation_en_to_nl" then
    _generate_translation user_word "en_to_nl"
  else if exercise_type = "translation_nl_to_en" then
    _generate_translation user_word "nl_to_en"
  else
    _generate_multiple_choice db sample shuffle user_word "en_to_nl"

/-- Possible behaviours of `random.sample xs k`: `min k xs.length` elements,
all drawn from `xs`. -/
def SampleValid (sample : ℕ → List UserWord → List UserWord) : Prop :=
  ∀ k xs, (sample k xs).length = min k xs.length ∧ ∀ w ∈ sample k xs, w ∈ xs

/-- Possible behaviours of `random.shuffle`: any permutation. -/
def ShuffleValid (shuffle : List String → List String) : Prop :=
  ∀ xs, (shuffle xs).Perm xs

/-- Taking the first `k` elements is one possible outcome of `random.sample`. -/
def sampleTake (k : ℕ) (xs : List UserWord) : List UserWord := xs.take k

/-- The identity permutation is one possible outcome of `random.shuffle`. -/
def shuffleId (xs : List String) : List String := xs

theorem sampleTake_valid : SampleValid sampleTake := by
  intro k xs
  constructor
  · simp [sampleTake, Nat.min_comm]
  · intro w hw
    exact List.mem_of_mem_take hw

theorem shuffleId_valid : ShuffleValid shuffleId := by
  intro xs
  exact List.Perm.refl xs

/-! ## UserWordRepository.update_average_response_time (src/data/repositories.py)

The source tests the previous value with `user_word.average_response_time.is_(0)`.
On a loaded ORM *instance*, `average_response_time` is a plain Python float
(or `None`), not a SQLAlchemy column expression, and floats have no method
`is_`, so evaluating the condition raises `AttributeError`.  Attribute
lookup on the float value is modelled by `float_is` below, and the raised
exception is threaded through `Except`. -/

inductive PyError where
  | attributeError (msg : String)
deriving DecidableEq

/-- Evaluating `x.is_(0)` where `x` is a plain float value: `AttributeError`. -/
def float_is (_x _y : ℚ) : Except PyError Bool :=
  .error (.attributeError "float object has no attribute is_")

def get_by_id (words : List UserWord) (user_word_id : ℕ) : Option UserWord :=
  words.find? (fun w => w.id == user_word_id)

def setAverageResponseTime (words : List UserWord) (user_word_id : ℕ)
    (v : ℚ) : List UserWord :=
  words.map (fun w =>
    if w.id == user_word_id then { w with average_response_time := v } else w)

/-- `update_average_response_time(user_word_id, response_time, alpha=0.3)`.
Both branches of the `if` are transcribed even though the condition's
evaluation raises before either is reached. -/
def update_average_response_time (words : List UserWord) (user_word_id : ℕ)
    (response_time : ℚ) (alpha : ℚ) : Except PyError (List UserWord) :=
  match get_by_id words user_word_id with
  | none => .ok words
  | some user_word => do
    let b ← float_is user_word.average_response_time 0
    if b then
      .ok (setAverageResponseTime words user_word_id response_time)
    else
      .ok (setAverageResponseTime words user_word_id
        (alpha * response_time + (1 - alpha) * user_word.average_response_time))

/-! ## BanditModelRepository and ContextualBandits
(src/data/repositories.py, src/ml/contextual_bandits.py)

The `bandit_models` table is a list of rows keyed by `(user_id,
exercise_type)`.  The dictionaries passed around by `update_reward` have
optional keys, modelled with `Option` fields: `load_model_data` returns a
dictionary that contains *no* `contexts`/`rewards` keys, which is the
behaviour the buffering logic of `update_reward` depends on.  The
sklearn fit (`LogisticRegression` + `StandardScaler`) is external code and
is a function parameter `fitB`; `json` decoding errors and training
exceptions (the `try`/`except` blocks) are modelled as absent because the
storage is typed. -/

structure BanditModelRow where
  user_id : ℕ
  exercise_type : String
  model_coefficients : List ℚ
  model_intercept : ℚ
  scaler_mean : List ℚ
  scaler_scale : List ℚ
  is_trained : Bool
deriving DecidableEq

/-- The model-data dictionary of `contextual_bandits.py`; `none` in
`contexts`/`rewards` means the key is absent from the dictionary. -/
structure BanditModelData where
  coefficients : List ℚ := []
  intercept : ℚ := 0
  scaler_mean : List ℚ := []
  scaler_scale : List ℚ := []
  is_trained : Bool := false
  contexts : Option (List (List ℚ)) := none
  rewards : Option (List ℕ) := none
deriving DecidableEq

def get_model (store : List BanditModelRow) (user_id : ℕ)
    (exercise_type : String) : Option BanditModelRow :=
  store.find? (fun m => m.user_id == user_id && m.exercise_type == exercise_type)

/-- `load_model_data`: `None` when the row is missing or untrained;
otherwise a dictionary holding exactly the keys `coefficients`,
`intercept`, `scaler_mean`, `scaler_scale`, `is_trained`. -/
def load_model_data (store : List BanditModelRow) (user_id : ℕ)
    (exercise_type : String) : Option BanditModelData :=
  match get_model store user_id exercise_type with
  | none => none
  | some m =>
    if !m.is_trained then none
    else some { coefficients := m.model_coefficients
                intercept := m.model_intercept
                scaler_mean := m.scaler_mean
                scaler_scale := m.scaler_scale
                is_trained := m.is_trained }

/-- `save_model`: update the first row with the given key, or append a new
row. -/
def save_model (store : List BanditModelRow) (user_id : ℕ)
    (exercise_type : String) (d : BanditModelData) : List BanditModelRow :=
  match store with
  | [] => [{ user_id := user_id
             exercise_type := exercise_type
             model_coefficients := d.coefficients
             model_intercept := d.intercept
             scaler_mean := d.scaler_mean
             scaler_scale := d.scaler_scale
             is_trained := d.is_trained }]
  | m :: rest =>
    if m.user_id == user_id && m.exercise_type == exercise_type then
      { user_id := user_id
        exercise_type := exercise_type
        model_coefficients := d.coefficients
        model_intercept := d.intercept
        scaler_mean := d.scaler_mean
        scaler_scale := d.scaler_scale
        is_trained := d.is_trained } :: rest
    else m :: save_model rest user_id exercise_type d

/-- The sklearn training step of `_train_and_save_model`, abstracted:
given the buffered contexts and reward labels it produces coefficients,
intercept, scaler mean and scaler scale. -/
def BanditFit : Type :=
  List (List ℚ) → List ℕ → List ℚ × ℚ × List ℚ × List ℚ

def _train_and_save_model (fitB : BanditFit) (store : List BanditModelRow)
    (user_id : ℕ) (exercise_type : String) (model_data : BanditModelData) :
    List BanditModelRow :=
  if (model_data.contexts.getD []).length < 5 then store
  else
    let f := fitB (model_data.contexts.getD []) (model_data.rewards.getD [])
    save_model store user_id exercise_type
      { coefficients := f.1
        intercept := f.2.1
        scaler_mean := f.2.2.1
        scaler_scale := f.2.2.2
        is_trained := true }

/-- `update_reward`.  The context feature vector (computed in the source by
`get_context_features` from the feature extractor) is passed in as `context`;
its value does not influence the control flow. -/
def update_reward (fitB : BanditFit) (store : List BanditModelRow)
    (user_id : ℕ) (context : List ℚ) (exercise_type : String)
    (is_correct : Bool) (response_time : ℚ) : List BanditModelRow :=
  let base_reward : ℚ := if is_correct then 1 else 0
  let time_bonus : ℚ := max 0 ((20 - response_time) / 20)
  let reward_label : ℕ := if 1/2 < base_reward + 0.2 * time_bonus then 1 else 0
  let model_data : BanditModelData :=
    match load_model_data store user_id exercise_type with
    | none => { contexts := some [], rewards := some [], is_trained := false }
    | some d => { d with contexts := some (d.contexts.getD [])
                         rewards := some (d.rewards.getD []) }
  let model_data := { model_data with
    contexts := some (model_data.contexts.getD [] ++ [context])
    rewards := some (model_data.rewards.getD [] ++ [reward_label]) }
  if 10 ≤ (model_data.contexts.getD []).length then
    _train_and_save_model fitB store user_id exercise_type model_data
  else store

/-- Arguments of one `update_reward` call:
(user, context vector, format, correct, latency). -/
def RewardCall : Type := ℕ × List (ℚ) × String × Bool × ℚ

def run_update_rewards (fitB : BanditFit) (store : List BanditModelRow)
    (calls : List RewardCall) : List BanditModelRow :=
  calls.foldl
    (fun st c => update_reward fitB st c.1 c.2.1 c.2.2.1 c.2.2.2.1 c.2.2.2.2)
    store

def armIsTrained (store : List BanditModelRow) (user_id : ℕ)
    (exercise_type : String) : Bool :=
  match get_model store user_id exercise_type with
  | some m => m.is_trained
  | none => false

/-! ## LearningProgressPredictor (src/ml/progress_predictor.py)

`train_model` guards: fewer than 5 training rows, or a single label class,
skip training and leave the model object untouched.  A training row pairs
the 15-dimensional feature vector with the binary target
(`1 if mastery_level >= 0.7 else 0`, from
`MLDataService.get_word_training_data`).  The sklearn fit is the function
parameter `fit`; the source sets `is_trained = True` after a successful
fit. -/

structure PredictorState where
  coefficients : List ℚ
  intercept : ℚ
  scaler_mean : List ℚ
  scaler_scale : List ℚ
  is_trained : Bool
deriving DecidableEq

structure TrainRow where
  features : List ℚ
  target : ℕ
deriving DecidableEq

def train_model (fit : List (List ℚ) → List ℕ → PredictorState)
    (st : PredictorState) (training_data : List TrainRow) :
    PredictorState × Bool :=
  if training_data.length < 5 then (st, false)
  else
    let X := training_data.map (fun r => r.features)
    let y := training_data.map (fun r => r.target)
    if (y.dedup).length < 2 then (st, false)
    else ({ fit X y with is_trained := true }, true)

/-! ## Theorems -/

theorem ease_factor_update (sessions : List LearningSession) (now : ℚ)
    (user_id : ℕ) (w : UserWord) (b : Bool) :
    (update_word_schedule sessions now user_id w b).ease_factor =
      if b then min 3 (w.ease_factor + 0.1) else max 1.3 (w.ease_factor - 0.2) := by
  cases b <;>
    simp [update_word_schedule, _update_user_word_progress,
      ease_factor_bonus, ease_factor_penalty, min_ease_factor]

theorem runSchedule_ease_bounds (user_id : ℕ) (w : UserWord)
    (h1 : 13/10 ≤ w.ease_factor) (h2 : w.ease_factor ≤ 3)
    (turns : List (List LearningSession × ℚ × Bool)) :
    13/10 ≤ (runSchedule user_id w turns).ease_factor
      ∧ (runSchedule user_id w turns).ease_factor ≤ 3 := by
  induction turns generalizing w with
  | nil => exact ⟨h1, h2⟩
  | cons t ts ih =>
    have hstep := ease_factor_update t.1 t.2.1 user_id w t.2.2
    have hrun : runSchedule user_id w (t :: ts) =
        runSchedule user_id (update_word_schedule t.1 t.2.1 user_id w t.2.2) ts := by
      simp [runSchedule]
    rw [hrun]
    apply ih
    · rw [hstep]
      by_cases hb : t.2.2 = true
      · rw [if_pos hb]
        exact le_min (by norm_num) (by linarith)
      · rw [if_neg hb]
        calc (13:ℚ)/10 ≤ 1.3 := by norm_num
        _ ≤ max 1.3 (w.ease_factor - 0.2) := le_max_left _ _
    · rw [hstep]
      by_cases hb : t.2.2 = true
      · rw [if_pos hb]
        exact min_le_left _ _
      · rw [if_neg hb]
        exact max_le (by norm_num) (by linarith)

/-- C8: starting from the default ease factor 2.5, after any sequence of
recorded answers (of any length, pattern, timing and session history) the
word's `ease_factor` remains within [1.3, 3.0]; since every prefix of a
sequence is itself a sequence, the bound holds after each update. -/
theorem C8_ease_factor_bounded (user_id : ℕ) (w : UserWord)
    (h : w.ease_factor = 2.5)
    (turns : List (List LearningSession × ℚ × Bool)) :
    13/10 ≤ (runSchedule user_id w turns).ease_factor
      ∧ (runSchedule user_id w turns).ease_factor ≤ 3 := by
  apply runSchedule_ease_bounds
  · rw [h]; norm_num
  · rw [h]; norm_num

theorem C8_ease_factor_bounded_witness :
    (freshWord 1 1 "kat" "cat").ease_factor = 2.5
    ∧ (13/10 ≤ (runSchedule 1 (freshWord 1 1 "kat" "cat")
          [([], 0, true), ([], 1, false)]).ease_factor
        ∧ (runSchedule 1 (freshWord 1 1 "kat" "cat")
          [([], 0, true), ([], 1, false)]).ease_factor ≤ 3) :=
  ⟨rfl, C8_ease_factor_bounded 1 (freshWord 1 1 "kat" "cat") rfl
        [([], 0, true), ([], 1, false)]⟩

/-- C9: when `train_model` is attempted with fewer than 5 training rows, or
with only one label class among the targets, training is skipped without
error and the model object (coefficients, scaler, trained flag) is exactly
what it was before the call. -/
theorem C9_train_model_skips (fit : List (List ℚ) → List ℕ → PredictorState)
    (st : PredictorState) (rows : List TrainRow)
    (h : rows.length < 5 ∨ ((rows.map (fun r => r.target)).dedup).length < 2) :
    train_model fit st rows = (st, false) := by
  rcases h with h | h
  · simp [train_model, h]
  · by_cases h5 : rows.length < 5
    · simp [train_model, h5]
    · simp [train_model, h5, h]

theorem C9_train_model_skips_witness :
    (([] : List TrainRow).length < 5
      ∨ ((([] : List TrainRow).map (fun r => r.target)).dedup).length < 2)
    ∧ train_model (fun _ _ => ⟨[], 0, [], [], false⟩)
        ⟨[1], 2, [3], [4], true⟩ [] = (⟨[1], 2, [3], [4], true⟩, false) :=
  ⟨Or.inl (by decide),
   C9_train_model_skips _ _ _ (Or.inl (by decide))⟩

/-- C10: `generate_exercise` is total over arbitrary format tags: for any
tag outside the four known exercise formats it returns exactly the
multiple-choice English-to-Dutch exercise it would return for
`multiple_choice_en_to_nl` (given the same random draws). -/
theorem C10_generate_exercise_default (db : List UserWord)
    (sample : ℕ → List UserWord → List UserWord)
    (shuffle : List String → List String) (w : UserWord) (t : String)
    (h1 : t ≠ "multiple_choice_en_to_nl") (h2 : t ≠ "multiple_choice_nl_to_en")
    (h3 : t ≠ "translation_en_to_nl") (h4 : t ≠ "translation_nl_to_en") :
    generate_exercise db sample shuffle w t =
      generate_exercise db sample shuffle w "multiple_choice_en_to_nl" := by
  rw [generate_exercise, generate_exercise]
  rw [if_neg h1, if_neg h2, if_neg h3, if_neg h4, if_pos rfl]

theorem C10_generate_exercise_default_witness :
    ("mystery_format" ≠ "multiple_choice_en_to_nl")
    ∧ generate_exercise [] sampleTake shuffleId (freshWord 1 1 "kat" "cat")
        "mystery_format"
      = generate_exercise [] sampleTake shuffleId (freshWord 1 1 "kat" "cat")
        "multiple_choice_en_to_nl" :=
  ⟨by decide,
   C10_generate_exercise_default [] sampleTake shuffleId
     (freshWord 1 1 "kat" "cat") "mystery_format"
     (by decide) (by decide) (by decide) (by decide)⟩

theorem load_model_data_no_buffer (store : List BanditModelRow)
    (user_id : ℕ) (exercise_type : String) (d : BanditModelData)
    (h : load_model_data store user_id exercise_type = some d) :
    d.contexts = none ∧ d.rewards = none := by
  unfold load_model_data at h
  revert h
  cases get_model store user_id exercise_type with
  | none => intro h; exact absurd h (by simp)
  | some m =>
    cases hmt : m.is_trained with
    | false => intro h; simp [hmt] at h
    | true =>
      intro h
      simp only [hmt, Bool.not_true, Bool.false_eq_true, if_false,
        Option.some.injEq] at h
      rw [← h]
      exact ⟨rfl, rfl⟩

theorem update_reward_store_id (fitB : BanditFit) (store : List BanditModelRow)
    (user_id : ℕ) (context : List ℚ) (exercise_type : String)
    (is_correct : Bool) (response_time : ℚ) :
    update_reward fitB store user_id context exercise_type is_correct
      response_time = store := by
  unfold update_reward
  cases h : load_model_data store user_id exercise_type with
  | none => simp
  | some d =>
    obtain ⟨hc, hr⟩ := load_model_data_no_buffer store user_id exercise_type d h
    simp [hc, hr]

/-- C1 (code behaviour): the (feature-vector, reward-label) buffer does not
persist across `update_reward` calls.  `load_model_data` returns a
dictionary without `contexts`/`rewards` keys, so every call rebuilds an
empty buffer, appends one pair, never reaches the retrain threshold of 10,
and leaves the stored models — in particular every arm's trained flag —
completely unchanged, no matter how many calls are made. -/
theorem C1_update_reward_never_trains (fitB : BanditFit)
    (store : List BanditModelRow) (calls : List RewardCall) :
    run_update_rewards fitB store calls = store
    ∧ ∀ user_id exercise_type,
        armIsTrained (run_update_rewards fitB store calls) user_id exercise_type
          = armIsTrained store user_id exercise_type := by
  have hrun : run_update_rewards fitB store calls = store := by
    induction calls with
    | nil => rfl
    | cons c cs ih =>
      have : run_update_rewards fitB store (c :: cs) =
          run_update_rewards fitB
            (update_reward fitB store c.1 c.2.1 c.2.2.1 c.2.2.2.1 c.2.2.2.2) cs := by
        simp [run_update_rewards]
      rw [this, update_reward_store_id]
      exact ih
  exact ⟨hrun, fun user_id exercise_type => by rw [hrun]⟩

/-- C2 (code behaviour): whenever the word exists,
`update_average_response_time` raises `AttributeError` — the condition
`user_word.average_response_time.is_(0)` calls `.is_` on a plain float —
instead of setting the exponential moving average. -/
theorem C2_update_average_response_time_raises (words : List UserWord)
    (user_word_id : ℕ) (response_time alpha : ℚ) (w : UserWord)
    (h : get_by_id words user_word_id = some w) :
    update_average_response_time words user_word_id response_time alpha =
      .error (.attributeError "float object has no attribute is_") := by
  unfold update_average_response_time
  rw [h]
  rfl

theorem C2_update_average_response_time_raises_witness :
    get_by_id [freshWord 1 1 "kat" "cat"] 1 = some (freshWord 1 1 "kat" "cat")
    ∧ update_average_response_time [freshWord 1 1 "kat" "cat"] 1 5 0.3 =
        .error (.attributeError "float object has no attribute is_") :=
  ⟨rfl, C2_update_average_response_time_raises _ _ _ _ _ rfl⟩

/-- C7 counterexample: one recorded incorrect answer on a fresh item
recomputes `mastery_level` to 0 while `times_seen` becomes 1 — the
heuristic value is 0 without `times_seen` being 0, refuting
"equals 0 exactly when times_seen == 0". -/
theorem C7_counterexample :
    (_update_user_word_progress 0 (freshWord 1 1 "kat" "cat") false).mastery_level = 0
    ∧ (_update_user_word_progress 0 (freshWord 1 1 "kat" "cat") false).times_seen = 1 := by
  constructor
  · simp [_update_user_word_progress, freshWord]
  · rfl

/-- C7 amended: the recomputed heuristic `mastery_level` always lies in
[0, 1], and — `times_seen` being at least 1 after any recorded outcome —
it equals 0 exactly when `times_correct` is 0 after the outcome. -/
theorem C7_heuristic_mastery (now : ℚ) (w : UserWord) (b : Bool) :
    0 ≤ (_update_user_word_progress now w b).mastery_level
    ∧ (_update_user_word_progress now w b).mastery_level ≤ 1
    ∧ ((_update_user_word_progress now w b).mastery_level = 0
        ↔ (_update_user_word_progress now w b).times_correct = 0) := by
  have hml : (_update_user_word_progress now w b).mastery_level =
      min 1 ((((w.times_correct + (if b then 1 else 0) : ℕ) : ℚ) /
          ((w.times_seen + 1 : ℕ) : ℚ)) * (((w.times_seen + 1 : ℕ) : ℚ) / 10)) := by
    simp [_update_user_word_progress]
  have htc : (_update_user_word_progress now w b).times_correct =
      w.times_correct + (if b then 1 else 0) := by
    simp [_update_user_word_progress]
  set tc : ℕ := w.times_correct + (if b then 1 else 0) with htcdef
  have hn : ((w.times_seen + 1 : ℕ) : ℚ) ≠ 0 := by
    exact_mod_cast Nat.succ_ne_zero w.times_seen
  have hkey : (((tc : ℕ) : ℚ) / ((w.times_seen + 1 : ℕ) : ℚ))
      * (((w.times_seen + 1 : ℕ) : ℚ) / 10) = (tc : ℚ) / 10 := by
    field_simp
  rw [hml, htc, hkey]
  refine ⟨le_min (by norm_num) (by positivity), min_le_left _ _, ?_⟩
  constructor
  · intro h
    rcases min_eq_iff.mp h with ⟨h1, _⟩ | ⟨h2, _⟩
    · exact absurd h1 (by norm_num)
    · have : (tc : ℚ) = 0 := by
        field_simp at h2
        exact_mod_cast h2
      exact_mod_cast this
  · intro h
    rw [h]
    norm_num

/-- The rounding used by the claim's formula (round half up; Python's
`round` agrees away from half-integers, which is all the inputs used
below). -/
def specRound (q : ℚ) : ℤ := ⌊q + 1/2⌋

/-- The word state produced by two correct answers on a fresh item
(both answered on the same pair of days 0 and 1): repetition count 2,
ease factor 2.7. -/
def c3word : UserWord :=
  { freshWord 1 1 "steen" "stone" with
      times_seen := 2
      times_correct := 2
      mastery_level := 1/5
      last_seen := some 1
      next_review_date := some 7
      repetition_count := 2
      ease_factor := 27/10 }

def c3session (t : ℚ) : LearningSession :=
  { user_id := 1
    user_word_id := 1
    exercise_type := "translation_en_to_nl"
    is_correct := true
    response_time := 5
    timestamp := t }

def c3sessions : List LearningSession := [c3session 0, c3session 1]

theorem floor_c3 : ⌊(27 : ℚ)/10⌋ = 2 := by
  norm_num [Int.floor_eq_iff]

/-- C3 counterexample: at the third correct answer of an all-correct streak
(repetition count becomes 3, ease factor 2.7, the two recorded review
events one day apart) the code schedules `now + 2` days —
`max(1, int(1 * 2.7)) = 2` — while the claimed formula
`max(1, round(prev_interval_days * ease_factor))` gives 3, and the claimed
streak consequence gives 16. -/
theorem C3_counterexample :
    (update_word_schedule c3sessions 7 1 c3word true).next_review_date
        = some (7 + ((2 : ℤ) : ℚ))
    ∧ max 1 (specRound ((1 : ℚ) * (27/10))) = 3
    ∧ max 1 (specRound ((6 : ℚ) * (27/10))) = 16
    ∧ (2 : ℤ) ≠ 3 ∧ (2 : ℤ) ≠ 16 := by
  refine ⟨?_, ?_, ?_, by decide, by decide⟩
  · norm_num [update_word_schedule, _update_user_word_progress,
      _get_previous_interval, c3word, c3sessions, c3session, freshWord,
      sortBy, insertSorted, pyInt, floor_c3, min_def, max_def]
  · norm_num [specRound, max_def, Int.floor_eq_iff]
  · norm_num [specRound, max_def, Int.floor_eq_iff]

def c3s0 : UserWord × List LearningSession := (freshWord 1 1 "steen" "stone", [])
def c3s1 : UserWord × List LearningSession :=
  answerTurn 1 "translation_en_to_nl" c3s0 0 true 5
def c3s2 : UserWord × List LearningSession :=
  answerTurn 1 "translation_en_to_nl" c3s1 1 true 5
def c3s3 : UserWord × List LearningSession :=
  answerTurn 1 "translation_en_to_nl" c3s2 7 true 5

theorem c3s1_eq : c3s1 =
    ({ id := 1, user_id := 1, dutch_word := "steen",
       english_translation := "stone", is_active := true,
       mastery_level := 1/10, last_seen := some 0, times_seen := 1,
       times_correct := 1, average_response_time := 0,
       next_review_date := some 1, repetition_count := 1,
       ease_factor := 13/5 },
     [c3session 0]) := by
  norm_num [c3s1, c3s0, answerTurn, update_word_schedule,
    _update_user_word_progress, freshWord, ease_factor_bonus, c3session,
    min_def]

theorem c3s2_eq : c3s2 =
    ({ id := 1, user_id := 1, dutch_word := "steen",
       english_translation := "stone", is_active := true,
       mastery_level := 1/5, last_seen := some 1, times_seen := 2,
       times_correct := 2, average_response_time := 0,
       next_review_date := some 7, repetition_count := 2,
       ease_factor := 27/10 },
     [c3session 0, c3session 1]) := by
  rw [c3s2, c3s1_eq]
  norm_num [answerTurn, update_word_schedule, _update_user_word_progress,
    ease_factor_bonus, c3session, min_def]

theorem c3s3_next : c3s3.1.next_review_date = some 9 := by
  rw [c3s3, c3s2_eq]
  norm_num [answerTurn, update_word_schedule, _update_user_word_progress,
    _get_previous_interval, c3session, sortBy, insertSorted, pyInt,
    floor_c3, ease_factor_bonus, min_def, max_def]

/-- C3 amended: on a correct answer whose incremented repetition count is
at least 3 the new interval is `max(1, int(prev_interval_days *
ease_factor))` — `int()` truncation, not rounding — where
`prev_interval_days` is the day difference between the two most recent
review events recorded *before* the current answer (default 1 when fewer
than two exist; the current answer's event is still unflushed when the
interval is computed).  Consequently an all-correct streak from a fresh
item answered exactly when due yields successive intervals 1, 6, then 2
(review dates day 1, day 7, day 9): at the third answer the two visible
events are one day apart and `max(1, int(1 * 2.7)) = 2`. -/
theorem C3_interval_truncates (sessions : List LearningSession) (now : ℚ)
    (user_id : ℕ) (w : UserWord) (h : 3 ≤ w.repetition_count + 1) :
    (update_word_schedule sessions now user_id w true).next_review_date =
      some (now + ((max 1 (pyInt
        ((_get_previous_interval sessions user_id w.id : ℚ) * w.ease_factor))
          : ℤ) : ℚ))
    ∧ (c3s1.1.next_review_date = some 1 ∧ c3s2.1.next_review_date = some 7
        ∧ c3s3.1.next_review_date = some 9) := by
  constructor
  · have h1 : ¬ (w.repetition_count + 1 = 1) := by omega
    have h2 : ¬ (w.repetition_count + 1 = 2) := by omega
    simp [update_word_schedule, _update_user_word_progress, h1, h2]
  · refine ⟨?_, ?_, c3s3_next⟩
    · rw [c3s1_eq]
    · rw [c3s2_eq]

theorem C3_interval_truncates_witness :
    3 ≤ c3word.repetition_count + 1
    ∧ ((update_word_schedule [] 0 1 c3word true).next_review_date =
        some (0 + ((max 1 (pyInt
          ((_get_previous_interval [] 1 c3word.id : ℚ) * c3word.ease_factor))
            : ℤ) : ℚ))
      ∧ (c3s1.1.next_review_date = some 1 ∧ c3s2.1.next_review_date = some 7
          ∧ c3s3.1.next_review_date = some 9)) :=
  ⟨by decide, C3_interval_truncates [] 0 1 c3word (by decide)⟩

theorem nullsFirstLe_total (a b : Option ℚ) :
    nullsFirstLe a b = true ∨ nullsFirstLe b a = true := by
  rcases a with _ | x <;> rcases b with _ | y <;> simp [nullsFirstLe]
  exact le_total x y

theorem nullsFirstLe_trans (a b c : Option ℚ)
    (h1 : nullsFirstLe a b = true) (h2 : nullsFirstLe b c = true) :
    nullsFirstLe a c = true := by
  rcases a with _ | x <;> rcases b with _ | y <;> rcases c with _ | z <;>
    simp [nullsFirstLe] at *
  exact le_trans h1 h2

def c4userA : User := { id := 1, telegram_id := 100 }

def c4wordA : UserWord := { freshWord 10 1 "huis" "house" with times_seen := 1 }

def c4wordB : UserWord :=
  { freshWord 11 1 "boom" "tree" with times_seen := 1, next_review_date := some 0 }

def c4pred : UserWord → ℚ := fun w => if w.id == 10 then 1 else 0

/-- C4 counterexample: with a mastery predictor and two due items —
`c4wordA` due because `next_review_at` is null, `c4wordB` due with a
timestamp in the past but lower predicted mastery — `pickNext` returns
`c4wordB`, so items with null `next_review_at` are *not* ordered strictly
first. -/
theorem C4_counterexample :
    get_next_word_for_review [c4userA] [c4wordA, c4wordB] 5 100 (some c4pred)
        = some c4wordB
    ∧ c4wordA ∈ _get_due_words [c4wordA, c4wordB] 1 5
    ∧ c4wordA.next_review_date = none
    ∧ c4wordB.next_review_date ≠ none := by
  refine ⟨rfl, ?_, rfl, by decide⟩
  exact List.mem_cons_self c4wordA [c4wordB]

/-- C4 amended: among the due items, `pickNext` returns — when a mastery
predictor is supplied and more than one item is due — a due item of
minimal *predicted* mastery (null `next_review_at` gives no priority);
with no predictor it returns the first due item in ascending
`next_review_at` order with nulls first (stored mastery is not
consulted). -/
theorem C4_due_selection (users : List User) (words : List UserWord)
    (now : ℚ) (tid : ℕ) (u : User) (m : UserWord → ℚ)
    (hu : users.find? (fun x => x.telegram_id == tid) = some u)
    (hne : _get_due_words words u.id now ≠ []) :
    (1 < (_get_due_words words u.id now).length →
      ∃ w, get_next_word_for_review users words now tid (some m) = some w
        ∧ w ∈ _get_due_words words u.id now
        ∧ ∀ v ∈ _get_due_words words u.id now, m w ≤ m v)
    ∧ (∃ w, get_next_word_for_review users words now tid none = some w
        ∧ w ∈ _get_due_words words u.id now
        ∧ ∀ v ∈ _get_due_words words u.id now,
            nullsFirstLe w.next_review_date v.next_review_date = true) := by
  constructor
  · intro hlen
    have hpick : get_next_word_for_review users words now tid (some m) =
        _prioritize_by_mastery (_get_due_words words u.id now) m := by
      simp only [get_next_word_for_review, hu]
      rw [if_pos hne, if_pos hlen]
    have htot : ∀ (a b : UserWord × ℚ),
        (decide (a.2 ≤ b.2)) = true ∨ (decide (b.2 ≤ a.2)) = true := by
      intro a b
      rcases le_total a.2 b.2 with h | h
      · exact Or.inl (decide_eq_true h)
      · exact Or.inr (decide_eq_true h)
    have htrans : ∀ (a b c : UserWord × ℚ), (decide (a.2 ≤ b.2)) = true →
        (decide (b.2 ≤ c.2)) = true → (decide (a.2 ≤ c.2)) = true := by
      intro a b c h1 h2
      exact decide_eq_true (le_trans (of_decide_eq_true h1) (of_decide_eq_true h2))
    set pairs := (_get_due_words words u.id now).map (fun w => (w, m w)) with hpairs
    have hpne : pairs ≠ [] := by
      rw [hpairs]
      simpa using hne
    obtain ⟨p, rest, hsort⟩ : ∃ p rest,
        sortBy (fun a b => decide (a.2 ≤ b.2)) pairs = p :: rest := by
      cases hs : sortBy (fun a b => decide (a.2 ≤ b.2)) pairs with
      | nil =>
        exfalso
        apply hpne
        have := length_sortBy (fun (a b : UserWord × ℚ) => decide (a.2 ≤ b.2)) pairs
        rw [hs] at this
        exact List.length_eq_zero.mp this.symm
      | cons p rest => exact ⟨p, rest, rfl⟩
    have hprio : _prioritize_by_mastery (_get_due_words words u.id now) m =
        some p.1 := by
      simp only [_prioritize_by_mastery, ← hpairs, hsort, List.head?_cons]
      rfl
    have hpmem : p ∈ pairs := by
      have : p ∈ sortBy (fun a b => decide (a.2 ≤ b.2)) pairs := by
        rw [hsort]
        exact List.mem_cons_self p rest
      exact (mem_sortBy _ pairs p).mp this
    obtain ⟨v0, hv0, hv0eq⟩ := List.mem_map.mp hpmem
    refine ⟨p.1, hpick.trans hprio, ?_, ?_⟩
    · rw [← hv0eq]
      exact hv0
    · intro v hv
      have hvp : (v, m v) ∈ pairs := List.mem_map_of_mem _ hv
      have := sortBy_head_min (fun a b => decide (a.2 ≤ b.2)) htot htrans
        pairs p rest hsort (v, m v) hvp
      have hle : p.2 ≤ m v := of_decide_eq_true this
      have hp1 : m p.1 = p.2 := by
        rw [← hv0eq]
      exact hp1 ▸ hle
  · have hpick : get_next_word_for_review users words now tid none =
        (_get_due_words words u.id now).head? := by
      simp only [get_next_word_for_review, hu]
      rw [if_pos hne]
    have htot : ∀ (a b : UserWord),
        nullsFirstLe a.next_review_date b.next_review_date = true
          ∨ nullsFirstLe b.next_review_date a.next_review_date = true :=
      fun a b => nullsFirstLe_total _ _
    have htrans : ∀ (a b c : UserWord),
        nullsFirstLe a.next_review_date b.next_review_date = true →
        nullsFirstLe b.next_review_date c.next_review_date = true →
        nullsFirstLe a.next_review_date c.next_review_date = true :=
      fun a b c h1 h2 => nullsFirstLe_trans _ _ _ h1 h2
    obtain ⟨x, rest, hx⟩ : ∃ x rest,
        _get_due_words words u.id now = x :: rest := by
      cases hs : _get_due_words words u.id now with
      | nil => exact absurd hs hne
      | cons x rest => exact ⟨x, rest, rfl⟩
    refine ⟨x, ?_, ?_, ?_⟩
    · rw [hpick, hx]
      rfl
    · rw [hx]
      exact List.mem_cons_self x rest
    · intro v hv
      have hfil : v ∈ (words.filter
          (fun w => w.user_id == u.id && w.is_active && isDue now w)) := by
        have : v ∈ _get_due_words words u.id now := hv
        rw [_get_due_words] at this
        exact (mem_sortBy _ _ v).mp this
      have hx2 : sortBy
          (fun a b => nullsFirstLe a.next_review_date b.next_review_date)
          (words.filter
            (fun w => w.user_id == u.id && w.is_active && isDue now w)) =
          x :: rest := by
        rw [← _get_due_words, hx]
      exact sortBy_head_min _ (fun a b => htot a b)
        (fun a b c => htrans a b c) _ x rest hx2 v hfil

theorem C4_due_selection_witness :
    (1 < (_get_due_words [c4wordA, c4wordB] c4userA.id 5).length →
      ∃ w, get_next_word_for_review [c4userA] [c4wordA, c4wordB] 5 100
          (some c4pred) = some w
        ∧ w ∈ _get_due_words [c4wordA, c4wordB] c4userA.id 5
        ∧ ∀ v ∈ _get_due_words [c4wordA, c4wordB] c4userA.id 5,
            c4pred w ≤ c4pred v)
    ∧ (∃ w, get_next_word_for_review [c4userA] [c4wordA, c4wordB] 5 100 none
          = some w
        ∧ w ∈ _get_due_words [c4wordA, c4wordB] c4userA.id 5
        ∧ ∀ v ∈ _get_due_words [c4wordA, c4wordB] c4userA.id 5,
            nullsFirstLe w.next_review_date v.next_review_date = true) :=
  C4_due_selection [c4userA] [c4wordA, c4wordB] 5 100 c4userA c4pred rfl
    (by decide)

def c5correct : UserWord := freshWord 1 1 "kat" "cat"

/-- A second learner's vocabulary, used by the fallback query of
`_generate_multiple_choice` (which drops the `user_id` filter). -/
def c5db : List UserWord :=
  [c5correct, freshWord 2 2 "hond" "dog", freshWord 3 2 "vis" "fish",
   freshWord 4 2 "beer" "bear"]

/-- C5 counterexample: when the learner owns no other active item, the code
falls back to the *global* vocabulary, so a possible draw of the random
sampler produces distractors ("hond", "vis", "beer") that belong to a
different learner — refuting "every distractor is drawn from the same
learner's other active vocabulary items". -/
theorem C5_counterexample :
    SampleValid sampleTake
    ∧ ShuffleValid shuffleId
    ∧ (_generate_multiple_choice c5db sampleTake shuffleId c5correct
        "en_to_nl").options = some ["kat", "hond", "vis", "beer"]
    ∧ (∀ w ∈ c5db, w.dutch_word = "hond" → w.user_id ≠ c5correct.user_id) := by
  refine ⟨sampleTake_valid, shuffleId_valid, rfl, ?_⟩
  decide

/-- C5 amended: whenever the learner has at least 3 other active items
(among the first 50 fetched), the rendered option set is a permutation of
the correct answer plus exactly 3 distractor texts, each belonging to one
of the learner's other active items; with fewer own items the code falls
back to all learners' vocabularies and may yield fewer than 3 distractors. -/
theorem C5_multiple_choice (db : List UserWord)
    (sample : ℕ → List UserWord → List UserWord)
    (shuffle : List String → List String) (cw : UserWord) (direction : String)
    (hs : SampleValid sample) (hsh : ShuffleValid shuffle)
    (h3 : 3 ≤ ((db.filter (fun w =>
        w.user_id == cw.user_id && w.id != cw.id && w.is_active)).take
          50).length) :
    ∃ opts ds,
      (_generate_multiple_choice db sample shuffle cw direction).options
          = some opts
      ∧ (_generate_multiple_choice db sample shuffle cw direction).correct_answer
          = (if direction == "en_to_nl" then cw.dutch_word
             else cw.english_translation)
      ∧ opts.Perm ((if direction == "en_to_nl" then cw.dutch_word
             else cw.english_translation) :: ds)
      ∧ ds.length = 3
      ∧ ∀ s ∈ ds, ∃ v, v ∈ db ∧ v.user_id = cw.user_id ∧ v.id ≠ cw.id
          ∧ v.is_active = true
          ∧ (if direction == "en_to_nl" then v.dutch_word
             else v.english_translation) = s := by
  set own := (db.filter (fun w =>
    w.user_id == cw.user_id && w.id != cw.id && w.is_active)).take 50 with hown
  have hne3 : ¬ (own.length < 3) := by omega
  have hmin : min 3 own.length = 3 := Nat.min_eq_left h3
  have hlen : (sample (min 3 own.length) own).length = 3 := by
    rw [(hs (min 3 own.length) own).1, hmin, hmin]
  have hmem : ∀ w ∈ sample (min 3 own.length) own,
      w ∈ db ∧ w.user_id = cw.user_id ∧ w.id ≠ cw.id ∧ w.is_active = true := by
    intro w hw
    have hwown : w ∈ own := (hs (min 3 own.length) own).2 w hw
    have hwfil : w ∈ db.filter (fun w =>
        w.user_id == cw.user_id && w.id != cw.id && w.is_active) := by
      rw [hown] at hwown
      exact List.mem_of_mem_take hwown
    rcases List.mem_filter.mp hwfil with ⟨hwdb, hcond⟩
    simp only [Bool.and_eq_true, beq_iff_eq, bne_iff_ne, ne_eq] at hcond
    exact ⟨hwdb, hcond.1.1, hcond.1.2, hcond.2⟩
  by_cases hd : (direction == "en_to_nl") = true
  · have hgen : _generate_multiple_choice db sample shuffle cw direction =
        { question := "What is the Dutch translation of \x27"
            ++ cw.english_translation ++ "\x27?"
          options := some (shuffle (cw.dutch_word ::
            (sample (min 3 own.length) own).map (fun w => w.dutch_word)))
          correct_answer := cw.dutch_word } := by
      simp only [_generate_multiple_choice, hd, if_true, ← hown, if_neg hne3]
    refine ⟨shuffle (cw.dutch_word ::
        (sample (min 3 own.length) own).map (fun w => w.dutch_word)),
      (sample (min 3 own.length) own).map (fun w => w.dutch_word),
      ?_, ?_, ?_, ?_, ?_⟩
    · rw [hgen]
    · rw [hgen]
      simp only [hd, if_true]
    · simp only [hd, if_true]
      exact hsh _
    · rw [List.length_map, hlen]
    · intro s hsmem
      obtain ⟨v, hv, hveq⟩ := List.mem_map.mp hsmem
      obtain ⟨h1, h2, h3w, h4⟩ := hmem v hv
      exact ⟨v, h1, h2, h3w, h4, by simp only [hd, if_true]; exact hveq⟩
  · have hd' : (direction == "en_to_nl") = false := by
      exact Bool.not_eq_true _ ▸ eq_false_of_ne_true hd
    have hgen : _generate_multiple_choice db sample shuffle cw direction =
        { question := "What is the English translation of \x27"
            ++ cw.dutch_word ++ "\x27?"
          options := some (shuffle (cw.english_translation ::
            (sample (min 3 own.length) own).map
              (fun w => w.english_translation)))
          correct_answer := cw.english_translation } := by
      simp only [_generate_multiple_choice, hd', Bool.false_eq_true, if_false,
        ← hown, if_neg hne3]
    refine ⟨shuffle (cw.english_translation ::
        (sample (min 3 own.length) own).map (fun w => w.english_translation)),
      (sample (min 3 own.length) own).map (fun w => w.english_translation),
      ?_, ?_, ?_, ?_, ?_⟩
    · rw [hgen]
    · rw [hgen]
      simp only [hd', Bool.false_eq_true, if_false]
    · simp only [hd', Bool.false_eq_true, if_false]
      exact hsh _
    · rw [List.length_map, hlen]
    · intro s hsmem
      obtain ⟨v, hv, hveq⟩ := List.mem_map.mp hsmem
      obtain ⟨h1, h2, h3w, h4⟩ := hmem v hv
      exact ⟨v, h1, h2, h3w, h4,
        by simp only [hd', Bool.false_eq_true, if_false]; exact hveq⟩

/-- A learner owning the correct word plus three other active items. -/
def c5owners : List UserWord :=
  [c5correct, freshWord 2 1 "hond" "dog", freshWord 3 1 "vis" "fish",
   freshWord 4 1 "beer" "bear"]

theorem C5_multiple_choice_witness :
    SampleValid sampleTake ∧ ShuffleValid shuffleId
    ∧ 3 ≤ ((c5owners.filter (fun w =>
        w.user_id == c5correct.user_id && w.id != c5correct.id
          && w.is_active)).take 50).length
    ∧ (∃ opts ds,
        (_generate_multiple_choice c5owners sampleTake shuffleId c5correct
            "en_to_nl").options = some opts
        ∧ (_generate_multiple_choice c5owners sampleTake shuffleId c5correct
            "en_to_nl").correct_answer
            = (if "en_to_nl" == "en_to_nl" then c5correct.dutch_word
               else c5correct.english_translation)
        ∧ opts.Perm ((if "en_to_nl" == "en_to_nl" then c5correct.dutch_word
               else c5correct.english_translation) :: ds)
        ∧ ds.length = 3
        ∧ ∀ s ∈ ds, ∃ v, v ∈ c5owners ∧ v.user_id = c5correct.user_id
            ∧ v.id ≠ c5correct.id ∧ v.is_active = true
            ∧ (if "en_to_nl" == "en_to_nl" then v.dutch_word
               else v.english_translation) = s) :=
  ⟨sampleTake_valid, shuffleId_valid, by decide,
   C5_multiple_choice c5owners sampleTake shuffleId c5correct "en_to_nl"
     sampleTake_valid shuffleId_valid (by decide)⟩

/-- Leading-article stripping as the claim words it: remove a grammatical
article prefix ("de " or "het ") from the front of the string. -/
def stripLeadingArticle (s : String) : String :=
  if strStartsWith s "de " then (s.data.drop 3).asString
  else if strStartsWith s "het " then (s.data.drop 4).asString
  else s

/-- The free-text matching policy exactly as the claim states it:
case-insensitive exact match, or match after stripping a *leading*
grammatical article from both sides, or (user's trimmed answer longer than
3 characters) substring containment either way. -/
def freeTextMatchClaimed (correct_answer user_answer : String) : Bool :=
  let user_clean := pyLower (pyStrip user_answer)
  let correct_clean := pyLower (pyStrip correct_answer)
  user_clean == correct_clean
  || stripLeadingArticle user_clean == stripLeadingArticle correct_clean
  || (3 < user_clean.data.length
      && (pyContains user_clean.data correct_clean.data
          || pyContains correct_clean.data user_clean.data))

def c6word : UserWord := freshWord 1 1 "bresteen" "broad stone"

/-- C6 counterexample: for the English-to-Dutch free-text exercise with
expected answer "bresteen", the user answer "brede steen" is accepted by
the code — `replace("de ", "")` deletes the *interior* occurrence of
"de " inside "brede steen" — but the claim's policy (leading-article
stripping, exact match, containment) rejects it. -/
theorem C6_counterexample :
    check_answer c6word "translation_en_to_nl" "brede steen" = true
    ∧ freeTextMatchClaimed "bresteen" "brede steen" = false := by decide

/-- The free-text matching policy as amended: case-insensitive exact match,
or — only for the English-to-Dutch direction — equality after deleting
every occurrence of "de " and then "het " from both sides, or (user's
trimmed answer longer than 3 characters) substring containment either
way. -/
def freeTextMatchAmended (strip_articles : Bool)
    (correct_answer user_answer : String) : Bool :=
  let user_clean := pyLower (pyStrip user_answer)
  let correct_clean := pyLower (pyStrip correct_answer)
  user_clean == correct_clean
  || (strip_articles
      && (removeHet (removeDe user_clean.data)).asString
          == (removeHet (removeDe correct_clean.data)).asString)
  || (3 < user_clean.data.length
      && (pyContains user_clean.data correct_clean.data
          || pyContains correct_clean.data user_clean.data))

theorem boolIte_or (a b : Bool) (p : Prop) [Decidable p] (d : Bool) :
    (if a = true then true else if b = true then true
      else if p then d else false) = (a || b || (decide p && d)) := by
  cases a <;> cases b <;> by_cases hp : p <;> simp [hp]

theorem boolIte_or2 (a : Bool) (p : Prop) [Decidable p] (d : Bool) :
    (if a = true then true else if p then d else false)
      = (a || (decide p && d)) := by
  cases a <;> by_cases hp : p <;> simp [hp]

/-- C6 amended: `checkAnswer` on free-text exercises accepts exactly a
case-insensitive (trimmed) match, or — English-to-Dutch only — a match
after deleting every occurrence of "de "/"het " from both sides, or —
user's trimmed answer longer than 3 characters — substring containment in
either direction; on multiple-choice exercises exactly a case-insensitive
trimmed match. -/
theorem C6_check_answer_policy (w : UserWord) (ua : String) :
    check_answer w "translation_en_to_nl" ua
        = freeTextMatchAmended true w.dutch_word ua
    ∧ check_answer w "translation_nl_to_en" ua
        = freeTextMatchAmended false w.english_translation ua
    ∧ check_answer w "multiple_choice_en_to_nl" ua
        = (pyLower (pyStrip ua) == pyLower (pyStrip w.dutch_word))
    ∧ check_answer w "multiple_choice_nl_to_en" ua
        = (pyLower (pyStrip ua) == pyLower (pyStrip w.english_translation)) := by
  refine ⟨?_, ?_, ?_, ?_⟩
  · have he : strEndsWith "translation_en_to_nl" "_to_nl" = true := by decide
    have hs : strStartsWith "translation_en_to_nl" "multiple_choice" = false := by
      decide
    have ht : ("translation_en_to_nl" == "translation_en_to_nl") = true := by
      decide
    simp only [check_answer, freeTextMatchAmended, he, hs, ht, if_true,
      Bool.false_eq_true, if_false, Bool.true_and]
    rw [boolIte_or]
  · have he : strEndsWith "translation_nl_to_en" "_to_nl" = false := by decide
    have hs : strStartsWith "translation_nl_to_en" "multiple_choice" = false := by
      decide
    have ht : ("translation_nl_to_en" == "translation_en_to_nl") = false := by
      decide
    simp only [check_answer, freeTextMatchAmended, he, hs, ht,
      Bool.false_eq_true, if_false, Bool.false_and, Bool.or_false]
    rw [boolIte_or2]
  · have he : strEndsWith "multiple_choice_en_to_nl" "_to_nl" = true := by decide
    have hs : strStartsWith "multiple_choice_en_to_nl" "multiple_choice"
        = true := by decide
    simp only [check_answer, he, hs, if_true]
  · have he : strEndsWith "multiple_choice_nl_to_en" "_to_nl" = false := by decide
    have hs : strStartsWith "multiple_choice_nl_to_en" "multiple_choice"
        = true := by decide
    simp only [check_answer, he, hs, if_true, Bool.false_eq_true, if_false]
